import Mathlib

/-!
Verification model of the acquisition-synchronization and ledger-reconciliation
pipeline in `scripts/substudy.py`.

The Python code is shallowly embedded: SQLite tables become lists of rows or
finite maps, ISO-8601 UTC timestamps become natural numbers (whole seconds,
matching the code's `replace(microsecond=0)` truncation) except where the code
itself compares timestamp strings lexicographically, in which case strings are
kept; external tools (yt-dlp, ffprobe) become explicit oracle parameters.
-/

namespace Substudy

/-! ## Retry backoff (`schedule_next_retry_iso`, substudy.py:2605-2609)

`delay_seconds = min(300 * (2 ** max(0, retry_count - 1)), 86400)`;
the returned timestamp is the wall clock *at the moment of the call* plus
the delay.  `retry_count` is a Python int, so the model takes `Int`. -/

def scheduleDelaySeconds (retryCount : Int) : Nat :=
  min (300 * 2 ^ (max 0 (retryCount - 1)).toNat) 86400

/-- `schedule_next_retry_iso` as seconds: wall-clock `now` plus the delay. -/
def scheduleNextRetryAt (now : Nat) (retryCount : Int) : Nat :=
  now + scheduleDelaySeconds retryCount

/-! ## Retry state rows (`download_state` table) -/

/-- One `download_state` row as written by the stage-synchronizer upsert loops
(substudy.py:797-837, 1056-1099, 1246-1289); timestamps in whole seconds. -/
structure StateRow where
  status : String
  retryCount : Nat
  lastError : Option String
  lastAttemptAt : Nat
  nextRetryAt : Option Nat
  deriving DecidableEq, Repr

/-- A retry-state store keyed by video id (one fixed source and stage). -/
def StateStore := String → Option StateRow

/-- The per-item classification writes of one stage invocation
(substudy.py:1056-1099 for subtitles, 1246-1289 for metadata, 797-837 for
media).  Every evidence-succeeded id is upserted with `status="success"`,
`retry_count=0`, `next_retry_at=NULL`; every failed id is upserted with
`status="error"`, the stored retry count plus one, and
`next_retry_at = schedule_next_retry_iso(new count)` evaluated at wall clock
`schedNow`; `last_attempt_at` is always the stage's `started_at` batch start
time `attemptAt`. -/
def applyStageResults (store : StateStore) (successIds failedIds : List String)
    (attemptAt schedNow : Nat) (failureReason : String) : StateStore :=
  fun id =>
    if successIds.contains id then
      some { status := "success", retryCount := 0, lastError := none,
             lastAttemptAt := attemptAt, nextRetryAt := none }
    else if failedIds.contains id then
      let prior : Nat := match store id with
        | some r => r.retryCount
        | none => 0
      some { status := "error", retryCount := prior + 1,
             lastError := some failureReason, lastAttemptAt := attemptAt,
             nextRetryAt := some (scheduleNextRetryAt schedNow ((prior : Int) + 1)) }
    else store id

/-- The empty retry-state store (no `download_state` rows). -/
def emptyStore : StateStore := fun _ => none

/-! ## Run recovery (`recover_interrupted_download_runs`, substudy.py:2640-2667) -/

/-- One `download_runs` row; only the columns the recovery pass touches. -/
structure DownloadRun where
  sourceId : String
  stage : String
  status : String
  finishedAt : Option String
  exitCode : Option Int
  errorMessage : Option String
  deriving DecidableEq, Repr

/-- The `UPDATE ... SET` applied to one matched row: force `status='error'`,
`finished_at = COALESCE(finished_at, ?)`, `exit_code = COALESCE(exit_code,130)`,
and replace the error message only when it is NULL or empty. -/
def recoverRun (finishedValue : String) (r : DownloadRun) : DownloadRun :=
  { r with
    status := "error"
    finishedAt := some (r.finishedAt.getD finishedValue)
    exitCode := some (r.exitCode.getD 130)
    errorMessage := some (match r.errorMessage with
      | none => "interrupted previous run"
      | some m => if m = "" then "interrupted previous run" else m) }

/-- `recover_interrupted_download_runs`: update every row of the table whose
`(source_id, stage)` matches and whose status is `'running'`. -/
def recoverInterruptedDownloadRuns (sourceId stage finishedValue : String)
    (runs : List DownloadRun) : List DownloadRun :=
  runs.map fun r =>
    if r.sourceId = sourceId ∧ r.stage = stage ∧ r.status = "running" then
      recoverRun finishedValue r
    else r

/-! ## `split_retryable_ids` (substudy.py:2826-2863)

The row lookup returns `(status, next_retry_at)`; `next_retry_at` is either
NULL or an ISO timestamp string, compared lexicographically against the
current time exactly as Python's `str <= str` does. -/

/-- The `(status, next_retry_at)` projection of a `download_state` row as read
by `split_retryable_ids`. -/
structure RetryRow where
  status : String
  nextRetryAt : Option String
  deriving DecidableEq, Repr

/-- The per-item test of the `split_retryable_ids` loop: no row, or a
non-error status, or a NULL/empty/elapsed `next_retry_at` is retryable. -/
def isRetryable (store : String → Option RetryRow) (nowValue : String)
    (videoId : String) : Bool :=
  match store videoId with
  | none => true
  | some row =>
    if row.status ≠ "error" then true
    else match row.nextRetryAt with
      | none => true
      | some t => t = "" || t ≤ nowValue

/-- `split_retryable_ids`: partition the candidates, preserving order, into
`(retryable, deferred)`. -/
def splitRetryableIds (store : String → Option RetryRow) (nowValue : String)
    (candidateIds : List String) : List String × List String :=
  (candidateIds.filter (isRetryable store nowValue),
   candidateIds.filter (fun id => ¬ isRetryable store nowValue id))

/-! ## Evidence-based stage classification
(`sync_source`, substudy.py:1042-1117 for subtitles, 1242-1307 for metadata)

After the single batch invocation, each candidate is classified by diffing the
post-invocation archive snapshot and local files; the exit code never enters
the per-item classification. -/

/-- Per-item evidence test: the id appears in the after-snapshot of the
archive, or a local file for it exists (substudy.py:1045-1054; metadata uses
file evidence only, i.e. an empty archive list). -/
def evidenceSuccess (afterArchiveIds localAfterIds : List String)
    (videoId : String) : Bool :=
  afterArchiveIds.contains videoId || localAfterIds.contains videoId

/-- Split the candidate list into `(success_ids, failed_ids)` by evidence. -/
def classifyStage (targetIds afterArchiveIds localAfterIds : List String) :
    List String × List String :=
  (targetIds.filter (evidenceSuccess afterArchiveIds localAfterIds),
   targetIds.filter (fun id => ¬ evidenceSuccess afterArchiveIds localAfterIds id))

/-- The terminal `download_runs` write of one stage invocation. -/
structure RunFinish where
  status : String
  exitCode : Int
  successCount : Nat
  failureCount : Nat
  errorMessage : Option String
  deriving DecidableEq, Repr

/-- The `finish_download_run` call closing a subtitles or metadata stage
(substudy.py:1101-1116, 1291-1306): status is `success` exactly when no
candidate failed; the error message is set only when some candidate failed,
and is then the command exception text, else `command exit code N` for a
nonzero exit, else the stage's `stillMissingMessage`. -/
def stageRunFinish (targetIds afterArchiveIds localAfterIds : List String)
    (exitCode : Int) (commandError : Option String)
    (stillMissingMessage : String) : RunFinish :=
  { status :=
      if (classifyStage targetIds afterArchiveIds localAfterIds).2.isEmpty
      then "success" else "error"
    exitCode := exitCode
    successCount := (classifyStage targetIds afterArchiveIds localAfterIds).1.length
    failureCount := (classifyStage targetIds afterArchiveIds localAfterIds).2.length
    errorMessage :=
      if (classifyStage targetIds afterArchiveIds localAfterIds).2.isEmpty then none
      else some (commandError.getD
        (if exitCode ≠ 0 then "command exit code " ++ toString exitCode
         else stillMissingMessage)) }

/-- The per-item failure reason used in the failed-id upsert loop
(substudy.py:1082-1086, 1272-1276). -/
def stageFailureReason (exitCode : Int) (commandError : Option String)
    (fileMissingMessage : String) : String :=
  commandError.getD
    (if exitCode ≠ 0 then "command exit code " ++ toString exitCode
     else fileMissingMessage)

/-- The full retry-state effect of one subtitles/metadata stage invocation:
classify by evidence, then upsert every success and every failure
(substudy.py:1056-1099, 1246-1289). -/
def stageApplyEvidence (store : StateStore)
    (targetIds afterArchiveIds localAfterIds : List String)
    (attemptAt schedNow : Nat) (exitCode : Int) (commandError : Option String)
    (fileMissingMessage : String) : StateStore :=
  applyStageResults store
    (classifyStage targetIds afterArchiveIds localAfterIds).1
    (classifyStage targetIds afterArchiveIds localAfterIds).2
    attemptAt schedNow
    (stageFailureReason exitCode commandError fileMissingMessage)

/-! ## Audio-repair subroutine (media stage, substudy.py:682-790)

The loop body for one target id.  External effects are oracles:
`fallbackMissing` is the `run_media_fallback_download(video_id, None)` call
made when no media file exists, `probe` is the first ffprobe call,
`fallbackRepair` the re-download issued on a confirmed missing audio stream,
`probeAfter` the re-probe.  `Except.error e` is a fallback failure with
reason `e`; `Except.ok p` yields the refreshed media path `p`. -/

/-- Result of one ffprobe call: audio stream present, absent, or unknown
(`detect_audio_stream` returning `None` with a warning message). -/
inductive ProbeOutcome
  | hasAudio
  | noAudio
  | unknown (message : String)
  deriving DecidableEq, Repr

/-- Outcome of the audio-repair loop body for one item. -/
structure AudioRepairResult where
  /-- `some reason` iff the id lands in `media_audio_fallback_failures`,
  i.e. the item is classified failed with this evidence string. -/
  failed : Option String
  /-- the item was counted in `media_audio_fallback_repaired`. -/
  repaired : Bool
  /-- a fallback re-download was issued because the media file was missing. -/
  missingFallbackAttempted : Bool
  deriving DecidableEq, Repr

/-- Final classification after the repair re-download, from the re-probe
outcome (substudy.py:766-790). -/
def audioRepairReprobe (attempted : Bool) (outcome : ProbeOutcome) :
    AudioRepairResult :=
  match outcome with
  | ProbeOutcome.hasAudio =>
    { failed := none, repaired := true, missingFallbackAttempted := attempted }
  | ProbeOutcome.noAudio =>
    { failed := some "audio fallback still has no audio stream",
      repaired := false, missingFallbackAttempted := attempted }
  | ProbeOutcome.unknown m =>
    { failed := some ("audio fallback ffprobe warning: " ++ m),
      repaired := false, missingFallbackAttempted := attempted }

/-- The probe-and-repair tail of the loop body (substudy.py:742-790):
probe, skip on unknown, one alternate-format re-download on confirmed
missing audio, then re-probe.  `attempted` records whether the missing-file
fallback already ran for this item. -/
def audioRepairProbe (path : String) (attempted : Bool)
    (probe : String → ProbeOutcome)
    (fallbackRepair : String → Except String String)
    (probeAfter : String → ProbeOutcome) : AudioRepairResult :=
  match probe path with
  | ProbeOutcome.hasAudio =>
    { failed := none, repaired := false, missingFallbackAttempted := attempted }
  | ProbeOutcome.unknown _ =>
    { failed := none, repaired := false, missingFallbackAttempted := attempted }
  | ProbeOutcome.noAudio =>
    match fallbackRepair path with
    | Except.error e =>
      { failed := some e, repaired := false, missingFallbackAttempted := attempted }
    | Except.ok pathAfter => audioRepairReprobe attempted (probeAfter pathAfter)

/-- One iteration of the audio-repair loop (substudy.py:725-790): when the
media file is missing, run the fallback download first; a fallback error is
the item's failure evidence, a fallback success feeds the refreshed path to
the probe chain. -/
def audioRepairStep (mediaPath : Option String)
    (fallbackMissing : Except String String)
    (probe : String → ProbeOutcome)
    (fallbackRepair : String → Except String String)
    (probeAfter : String → ProbeOutcome) : AudioRepairResult :=
  match mediaPath with
  | some path => audioRepairProbe path false probe fallbackRepair probeAfter
  | none =>
    match fallbackMissing with
    | Except.error e =>
      { failed := some e, repaired := false, missingFallbackAttempted := true }
    | Except.ok path => audioRepairProbe path true probe fallbackRepair probeAfter

/-! ## Backfill cursor (`ensure_backfill_state` substudy.py:3001-3047,
`run_backfill` substudy.py:3917-4076)

Discovery is an oracle from the inclusive window `[start, end]` to `none`
(enumeration error) or `some ids`. -/

/-- One `backfill_state` row. -/
structure BackfillState where
  status : String
  nextStart : Nat
  windowSize : Nat
  lastWindowStart : Option Nat
  lastWindowEnd : Option Nat
  lastSeenCount : Option Nat
  completedAt : Option Nat
  deriving DecidableEq, Repr

/-- `ensure_backfill_state`: insert an active row at the defaults when absent;
on conflict only refresh `window_size`. -/
def ensureBackfillState (defaultStart defaultWindow : Nat)
    (row : Option BackfillState) : BackfillState :=
  match row with
  | none =>
    { status := "active", nextStart := defaultStart, windowSize := defaultWindow,
      lastWindowStart := none, lastWindowEnd := none, lastSeenCount := none,
      completedAt := none }
  | some s => { s with windowSize := defaultWindow }

/-- The per-invocation window loop (substudy.py:3976-4074).  `now` is the
wall-clock second recorded as `completed_at`.  A discovery error writes the
cursor back unchanged at the same `next_start` and stops; a zero-id window
completes at the current `next_start`; a short window syncs, advances past
the window and completes; a full window syncs, advances and continues. -/
def backfillWindows (oracle : Nat → Nat → Option (List String)) (now : Nat)
    (windowSize : Nat) : Nat → Nat → BackfillState → BackfillState
  | 0, _, s => s
  | windowsLeft + 1, nextStart, s =>
    let windowEnd := nextStart + windowSize - 1
    match oracle nextStart windowEnd with
    | none =>
      { s with status := "active", nextStart := nextStart,
               lastWindowStart := some nextStart, lastWindowEnd := some windowEnd,
               lastSeenCount := none, completedAt := none }
    | some ids =>
      if ids.length = 0 then
        { s with status := "completed", nextStart := nextStart,
                 lastWindowStart := some nextStart, lastWindowEnd := some windowEnd,
                 lastSeenCount := some 0, completedAt := some now }
      else
        let reachedTail := ids.length < windowSize
        let advanced : BackfillState :=
          { s with status := if reachedTail then "completed" else "active",
                   nextStart := windowEnd + 1,
                   lastWindowStart := some nextStart, lastWindowEnd := some windowEnd,
                   lastSeenCount := some ids.length,
                   completedAt := if reachedTail then some now else none }
        if reachedTail then advanced
        else backfillWindows oracle now windowSize windowsLeft (windowEnd + 1) advanced

/-- One `run_backfill` invocation for one source: ensure the cursor, return it
unchanged when already completed, else process up to `windowsPerRun`
windows. -/
def backfillInvocation (oracle : Nat → Nat → Option (List String)) (now : Nat)
    (windowsPerRun defaultStart defaultWindow : Nat)
    (row : Option BackfillState) : BackfillState :=
  let s := ensureBackfillState defaultStart defaultWindow row
  if s.status = "completed" then s
  else backfillWindows oracle now (max 1 s.windowSize) windowsPerRun s.nextStart s

/-! ## Ledger reconciler (`build_ledger`, `rebuild_source_full`,
`rebuild_source_incremental`, substudy.py:2353-2602)

One source is modelled.  The filesystem snapshot records which ids have a
metadata record (`load_meta_records`), which have a media file
(`scan_media_files`), and the subtitle file paths per id (`scan_subtitles`).
Catalog rows keep the presence fields the reconciliation signals read
(`meta_path IS NULL` becomes `hasMeta`, `has_media`/`has_subtitles` become
Booleans). -/

/-- Filesystem snapshot for one source. -/
structure LedgerFS where
  metaIds : List String
  mediaIds : List String
  subFiles : List (String × List String)
  deriving DecidableEq, Repr

/-- Subtitle paths `scan_subtitles`/`scan_subtitles_for_video` find for an id. -/
def scanSubPaths (fs : LedgerFS) (videoId : String) : List String :=
  (fs.subFiles.lookup videoId).getD []

/-- The key set of the `scan_subtitles` map: ids with at least one subtitle
file. -/
def subScanIds (fs : LedgerFS) : List String :=
  (fs.subFiles.map Prod.fst).filter (fun v => ¬ (scanSubPaths fs v).isEmpty)

/-- The id union of the three full-rebuild scans (substudy.py:2405). -/
def scanUnion (fs : LedgerFS) : List String :=
  (fs.metaIds ++ fs.mediaIds ++ subScanIds fs).dedup

/-- One `videos` row, reduced to the fields reconciliation reads. -/
structure VideoRow where
  videoId : String
  hasMeta : Bool
  hasMedia : Bool
  hasSubs : Bool
  deriving DecidableEq, Repr

/-- Identity of one `download_state` row, the unit of C1's deletion claim. -/
structure DownloadStateKey where
  stage : String
  videoId : String
  deriving DecidableEq, Repr

/-- Ledger database state for one source: the `videos` table, the `subtitles`
table as `(video_id, subtitle_path)` rows, and the `download_state` rows. -/
structure LedgerDB where
  videos : List VideoRow
  subtitles : List (String × String)
  downloadState : List DownloadStateKey
  deriving DecidableEq, Repr

/-- The row `upsert_video_and_subtitles` derives from the local files
(substudy.py:2216-2332): `meta_path`, `has_media`, `has_subtitles` all come
from what the scan found for this id. -/
def mkVideoRow (fs : LedgerFS) (videoId : String) : VideoRow :=
  { videoId := videoId
    hasMeta := fs.metaIds.contains videoId
    hasMedia := fs.mediaIds.contains videoId
    hasSubs := ¬ (scanSubPaths fs videoId).isEmpty }

/-- `INSERT ... ON CONFLICT(source_id, video_id) DO UPDATE`: replace the
keyed row in place, else append. -/
def upsertVideoRow (rows : List VideoRow) (row : VideoRow) : List VideoRow :=
  if rows.any (fun r => r.videoId = row.videoId) then
    rows.map (fun r => if r.videoId = row.videoId then row else r)
  else rows ++ [row]

/-- Replace one video's `subtitles` rows with the scanned set
(substudy.py:2334-2350). -/
def setSubtitleRows (subs : List (String × String)) (videoId : String)
    (paths : List String) : List (String × String) :=
  subs.filter (fun p => p.1 ≠ videoId) ++ paths.map (fun path => (videoId, path))

/-- `upsert_video_and_subtitles` for one id against the filesystem snapshot. -/
def upsertVideoAndSubtitles (fs : LedgerFS) (videoId : String)
    (db : LedgerDB) : LedgerDB :=
  { db with
    videos := upsertVideoRow db.videos (mkVideoRow fs videoId)
    subtitles := setSubtitleRows db.subtitles videoId (scanSubPaths fs videoId) }

/-- Upsert a list of ids in order. -/
def upsertMany (fs : LedgerFS) (videoIds : List String) (db : LedgerDB) :
    LedgerDB :=
  videoIds.foldl (fun db videoId => upsertVideoAndSubtitles fs videoId db) db

/-- Video ids currently in the catalog. -/
def dbVideoIds (db : LedgerDB) : List String :=
  db.videos.map (fun r => r.videoId)

/-- Subtitle paths the `subtitles` table records for one video. -/
def dbSubPaths (db : LedgerDB) (videoId : String) : List String :=
  (db.subtitles.filter (fun p => p.1 = videoId)).map (fun p => p.2)

/-- Video ids appearing in the `subtitles` table. -/
def dbSubVideoIds (db : LedgerDB) : List String :=
  db.subtitles.map (fun p => p.1)

/-- Set equality of two path lists (Python compares `set(...) == set(...)`).-/
def listSetEq (a b : List String) : Bool :=
  a.all (fun x => b.contains x) && b.all (fun x => a.contains x)

/-- `rebuild_source_full` (substudy.py:2398-2431): clear the source's
subtitle rows, upsert every id found by the three scans, then prune every
catalog row whose id the scans did not find
(`prune_source_videos_full_rebuild`, substudy.py:2353-2395). -/
def rebuildSourceFull (fs : LedgerFS) (db : LedgerDB) : LedgerDB :=
  let allIds := scanUnion fs
  let upserted := upsertMany fs allIds { db with subtitles := [] }
  { upserted with
    videos := upserted.videos.filter (fun r => allIds.contains r.videoId) }

/-- `missing_from_db_ids` (substudy.py:2448-2450): archive ids absent from
the catalog. -/
def missingFromDbIds (mediaArchive subsArchive : List String) (db : LedgerDB) :
    List String :=
  (mediaArchive ++ subsArchive).filter (fun id => ¬ (dbVideoIds db).contains id)

/-- `no_meta_ids` (substudy.py:2452-2465): cataloged ids with no metadata
path that the archives say should have one. -/
def noMetaCandidateIds (mediaArchive subsArchive : List String) (db : LedgerDB) :
    List String :=
  ((db.videos.filter (fun r => ¬ r.hasMeta)).map (fun r => r.videoId)).filter
    (fun id => (mediaArchive ++ subsArchive).contains id)

/-- `media_backfill_ids` (substudy.py:2467-2481): media-archived ids whose
catalog row says no media. -/
def mediaBackfillIds (mediaArchive : List String) (db : LedgerDB) : List String :=
  mediaArchive.filter (fun id =>
    ((db.videos.filter (fun r => ¬ r.hasMedia)).map (fun r => r.videoId)).contains id)

/-- `subtitle_backfill_ids` (substudy.py:2474-2482): subs-archived ids whose
catalog row says no subtitles. -/
def subtitleBackfillIds (subsArchive : List String) (db : LedgerDB) : List String :=
  subsArchive.filter (fun id =>
    ((db.videos.filter (fun r => ¬ r.hasSubs)).map (fun r => r.videoId)).contains id)

/-- `subtitle_changed_ids` (substudy.py:2484-2509): ids whose recorded
subtitle-file set differs from what is on disk. -/
def subtitleChangedIds (fs : LedgerFS) (db : LedgerDB) : List String :=
  (subScanIds fs ++ dbSubVideoIds db).filter
    (fun v => ¬ listSetEq (scanSubPaths fs v) (dbSubPaths db v))

/-- The candidate id set of `rebuild_source_incremental`
(substudy.py:2511-2517): the union of the five independent signals. -/
def incrementalCandidates (fs : LedgerFS) (mediaArchive subsArchive : List String)
    (db : LedgerDB) : List String :=
  missingFromDbIds mediaArchive subsArchive db ++
  noMetaCandidateIds mediaArchive subsArchive db ++
  mediaBackfillIds mediaArchive db ++
  subtitleBackfillIds subsArchive db ++
  subtitleChangedIds fs db

/-- `rebuild_source_incremental` (substudy.py:2434-2555): an empty catalog
falls back to a full rescan; an empty candidate set is a no-op; otherwise
only the candidates are re-derived from local files (upserts, no deletes). -/
def rebuildSourceIncremental (fs : LedgerFS) (mediaArchive subsArchive : List String)
    (db : LedgerDB) : LedgerDB :=
  if dbVideoIds db = [] then rebuildSourceFull fs db
  else if incrementalCandidates fs mediaArchive subsArchive db = [] then db
  else upsertMany fs (incrementalCandidates fs mediaArchive subsArchive db) db

/-- The per-source body of `build_ledger` (substudy.py:2571-2597): rebuild in
the selected mode, then — in *both* modes — delete every `download_state`
row whose `video_id` is not in the source's `videos` table. -/
def buildLedgerSource (incremental : Bool) (fs : LedgerFS)
    (mediaArchive subsArchive : List String) (db : LedgerDB) : LedgerDB :=
  let rebuilt :=
    if incremental then rebuildSourceIncremental fs mediaArchive subsArchive db
    else rebuildSourceFull fs db
  { rebuilt with
    downloadState := rebuilt.downloadState.filter
      (fun rec => (dbVideoIds rebuilt).contains rec.videoId) }

/-! ## Helper lemmas -/

/-- The stored retry count `upsert_download_state` reads before a failure
upsert (0 when no row exists). -/
def priorRetryCount (store : StateStore) (videoId : String) : Nat :=
  match store videoId with
  | some r => r.retryCount
  | none => 0

theorem scheduleDelaySeconds_succNat (n : Nat) :
    scheduleDelaySeconds ((n : Int) + 1) = min (300 * 2 ^ n) 86400 := by
  unfold scheduleDelaySeconds
  have h1 : ((n : Int) + 1 - 1) = (n : Int) := by ring
  rw [h1]
  have h2 : max (0 : Int) (n : Int) = (n : Int) := max_eq_right (by positivity)
  rw [h2]
  simp

/-- The spec-side retryability predicate, stated in the claim's own words:
an item is retryable exactly when it has no record, or its status is not
`error`, or its `next_retry_at` is null or not later than the current time. -/
def specRetryable (store : String → Option RetryRow) (nowValue videoId : String) :
    Prop :=
  store videoId = none ∨
    ∃ row, store videoId = some row ∧
      (row.status ≠ "error" ∨ row.nextRetryAt = none ∨
        ∃ t, row.nextRetryAt = some t ∧ t ≤ nowValue)

theorem emptyString_le (s : String) : "" ≤ s := by
  rw [String.le_iff_toList_le]
  simp

theorem isRetryable_iff_specRetryable (store : String → Option RetryRow)
    (nowValue videoId : String) :
    isRetryable store nowValue videoId = true ↔
      specRetryable store nowValue videoId := by
  unfold isRetryable specRetryable
  cases hrow : store videoId with
  | none => simp
  | some row =>
    simp only [reduceCtorEq, Option.some.injEq, false_or]
    constructor
    · intro h
      refine ⟨row, rfl, ?_⟩
      by_cases hst : row.status = "error"
      · cases hnra : row.nextRetryAt with
        | none => exact Or.inr (Or.inl rfl)
        | some t =>
          rw [if_neg (by simp [hst]), hnra] at h
          simp only [Bool.or_eq_true, decide_eq_true_eq] at h
          rcases h with h | h
          · subst h
            exact Or.inr (Or.inr ⟨"", rfl, emptyString_le nowValue⟩)
          · exact Or.inr (Or.inr ⟨t, rfl, h⟩)
      · exact Or.inl hst
    · rintro ⟨row2, heq, hcond⟩
      cases heq
      rcases hcond with h | h | ⟨t, ht, hle⟩
      · rw [if_pos h]
      · by_cases hst : row.status = "error"
        · rw [if_neg (by simp [hst]), h]
        · rw [if_pos hst]
      · by_cases hst : row.status = "error"
        · rw [if_neg (by simp [hst]), ht]
          simp [hle]
        · rw [if_pos hst]

/-- A small concrete retry-state store: item `a` has a future retry time,
item `b` an elapsed one, everything else no record. -/
def exampleRetryStore : String → Option RetryRow := fun id =>
  if id = "a" then
    some { status := "error", nextRetryAt := some "2024-01-03T00:00:00+00:00" }
  else if id = "b" then
    some { status := "error", nextRetryAt := some "2024-01-01T00:00:00+00:00" }
  else none

/-! ## Claim theorems -/

/-- C10: `schedule_next_retry_iso` is total over all integer retry counts and
computes `min(300 * 2^(max(0, retry_count - 1)), 86400)`, a delay that always
lies between 300 and 86400 seconds inclusive. -/
theorem scheduleDelaySeconds_total_and_bounded (retryCount : Int) :
    scheduleDelaySeconds retryCount =
      min (300 * 2 ^ (max 0 (retryCount - 1)).toNat) 86400 ∧
    300 ≤ scheduleDelaySeconds retryCount ∧
    scheduleDelaySeconds retryCount ≤ 86400 := by
  refine ⟨rfl, ?_, ?_⟩
  · unfold scheduleDelaySeconds
    have h2 : 1 ≤ 2 ^ (max 0 (retryCount - 1)).toNat := Nat.one_le_two_pow
    have h3 : 300 * 1 ≤ 300 * 2 ^ (max 0 (retryCount - 1)).toNat :=
      Nat.mul_le_mul_left 300 h2
    exact le_min (by omega) (by omega)
  · exact min_le_right _ _

/-- C3 counterexample: a failed-item upsert records
`last_attempt_at = 0` (the batch start) but schedules `next_retry_at` from
wall clock 100 at classification time, yielding 400, not
`last_attempt_at + min(300 * 2^(retry_count - 1), 86400) = 300`. -/
theorem retry_schedule_not_attempt_based_cex :
    applyStageResults emptyStore [] ["a"] 0 100 "e" "a" =
      some { status := "error", retryCount := 1, lastError := some "e",
             lastAttemptAt := 0, nextRetryAt := some 400 } ∧
    (400 : Nat) ≠ 0 + min (300 * 2 ^ ((1 : Nat) - 1)) 86400 := by
  constructor
  · rfl
  · decide

/-- C3 amended: after a failed attempt the record's status is `error`, its
retry count is the stored count plus one, its `last_attempt_at` is the
stage's batch start time, and `next_retry_at` equals the *classification-time
wall clock* (not `last_attempt_at`) plus
`min(300 * 2^(retry_count - 1), 86400)` seconds; the two coincide only when
classification happens at the recorded attempt second. -/
theorem stage_error_upsert_schedule (store : StateStore)
    (successIds failedIds : List String) (attemptAt schedNow : Nat)
    (failureReason : String) (videoId : String)
    (hFail : failedIds.contains videoId = true)
    (hNotSucc : successIds.contains videoId = false) :
    applyStageResults store successIds failedIds attemptAt schedNow
        failureReason videoId =
      some { status := "error"
             retryCount := priorRetryCount store videoId + 1
             lastError := some failureReason
             lastAttemptAt := attemptAt
             nextRetryAt := some (schedNow +
               min (300 * 2 ^ ((priorRetryCount store videoId + 1) - 1)) 86400) } := by
  have key : ∀ p : Nat,
      scheduleDelaySeconds ((p : Int) + 1) = min (300 * 2 ^ ((p + 1) - 1)) 86400 := by
    intro p
    rw [scheduleDelaySeconds_succNat]
    norm_num
  unfold applyStageResults scheduleNextRetryAt priorRetryCount
  rw [hNotSucc, hFail]
  simp only [Bool.false_eq_true, if_false, if_true]
  cases hrow : store videoId with
  | none => rw [key 0]
  | some r => rw [key r.retryCount]

/-- C3 witness: the amended theorem evaluated on the empty store with batch
start 0 and classification clock 100. -/
theorem stage_error_upsert_schedule_witness :
    applyStageResults emptyStore [] ["a"] 0 100 "e" "a" =
      some { status := "error"
             retryCount := priorRetryCount emptyStore "a" + 1
             lastError := some "e"
             lastAttemptAt := 0
             nextRetryAt := some (100 +
               min (300 * 2 ^ ((priorRetryCount emptyStore "a" + 1) - 1)) 86400) } :=
  stage_error_upsert_schedule emptyStore [] ["a"] 0 100 "e" "a"
    (by decide) (by decide)

/-- C5: the recovery pass updates every `running` row of the given
`(source, stage)` to `status='error'` with a non-empty error message,
keeps any already-present non-empty error message, and keeps an already-set
`finished_at` untouched. -/
theorem recover_interrupted_forces_error (sourceId stage finishedValue : String)
    (runs : List DownloadRun) (r : DownloadRun) (hMem : r ∈ runs)
    (hRun : r.status = "running") (hSid : r.sourceId = sourceId)
    (hStg : r.stage = stage) :
    recoverRun finishedValue r ∈
        recoverInterruptedDownloadRuns sourceId stage finishedValue runs ∧
    (recoverRun finishedValue r).status = "error" ∧
    (recoverRun finishedValue r).errorMessage ≠ none ∧
    (recoverRun finishedValue r).errorMessage ≠ some "" ∧
    (∀ m, r.errorMessage = some m → m ≠ "" →
        (recoverRun finishedValue r).errorMessage = some m) ∧
    (∀ t, r.finishedAt = some t → (recoverRun finishedValue r).finishedAt = some t) := by
  refine ⟨?_, rfl, ?_, ?_, ?_, ?_⟩
  · unfold recoverInterruptedDownloadRuns
    refine List.mem_map.mpr ⟨r, hMem, ?_⟩
    rw [if_pos ⟨hSid, hStg, hRun⟩]
  · simp [recoverRun]
  · unfold recoverRun
    cases hmsg : r.errorMessage with
    | none => simp
    | some m =>
      by_cases hm : m = "" <;> simp [hm]
  · intro m hmsg hm
    unfold recoverRun
    rw [hmsg]
    simp [hm]
  · intro t hfin
    unfold recoverRun
    rw [hfin]
    rfl

/-- C5 witness: recovery applied to a one-row table holding a `running` run
with a set `finished_at` and an existing error message. -/
theorem recover_interrupted_forces_error_witness :
    recoverRun "T1"
        { sourceId := "s", stage := "media", status := "running",
          finishedAt := some "T0", exitCode := none,
          errorMessage := some "boom" } ∈
      recoverInterruptedDownloadRuns "s" "media" "T1"
        [{ sourceId := "s", stage := "media", status := "running",
           finishedAt := some "T0", exitCode := none,
           errorMessage := some "boom" }] ∧
    (recoverRun "T1"
        { sourceId := "s", stage := "media", status := "running",
          finishedAt := some "T0", exitCode := none,
          errorMessage := some "boom" }).status = "error" :=
  ⟨(recover_interrupted_forces_error "s" "media" "T1" _ _ (by simp) rfl rfl rfl).1,
   (recover_interrupted_forces_error "s" "media" "T1"
      [{ sourceId := "s", stage := "media", status := "running",
         finishedAt := some "T0", exitCode := none,
         errorMessage := some "boom" }] _ (by simp) rfl rfl rfl).2.1⟩

/-- C6: `split_retryable_ids` partitions its candidates exactly — the two
returned lists cover the candidate set, are disjoint, and an item lands in
the retryable list precisely when it has no record, a non-error status, or a
null-or-elapsed `next_retry_at`. -/
theorem splitRetryableIds_partition (store : String → Option RetryRow)
    (nowValue : String) (candidateIds : List String) :
    (∀ id, (id ∈ (splitRetryableIds store nowValue candidateIds).1 ∨
            id ∈ (splitRetryableIds store nowValue candidateIds).2) ↔
           id ∈ candidateIds) ∧
    (∀ id, ¬ (id ∈ (splitRetryableIds store nowValue candidateIds).1 ∧
              id ∈ (splitRetryableIds store nowValue candidateIds).2)) ∧
    (∀ id, id ∈ (splitRetryableIds store nowValue candidateIds).1 ↔
           id ∈ candidateIds ∧ specRetryable store nowValue id) := by
  refine ⟨?_, ?_, ?_⟩
  · intro id
    unfold splitRetryableIds
    simp only [List.mem_filter]
    by_cases h : isRetryable store nowValue id = true <;> simp [h]
  · intro id
    unfold splitRetryableIds
    simp only [List.mem_filter]
    rintro ⟨⟨_, h1⟩, ⟨_, h2⟩⟩
    simp [h1] at h2
  · intro id
    unfold splitRetryableIds
    simp only [List.mem_filter]
    rw [isRetryable_iff_specRetryable]

/-- C6 witness: the partition evaluated on a two-row store with one deferred
item (future retry time), one elapsed item, and one unknown item. -/
theorem splitRetryableIds_partition_witness :
    ("c" ∈ (splitRetryableIds exampleRetryStore "2024-01-02T00:00:00+00:00"
        ["a", "b", "c"]).1 ∨
     "c" ∈ (splitRetryableIds exampleRetryStore "2024-01-02T00:00:00+00:00"
        ["a", "b", "c"]).2) ↔
    "c" ∈ ["a", "b", "c"] :=
  (splitRetryableIds_partition exampleRetryStore "2024-01-02T00:00:00+00:00"
    ["a", "b", "c"]).1 "c"

/-- C4: starting from no cursor row with default start 1 and window size 50,
one window per invocation, a remote listing with exactly 50 ids at positions
`[1, 50]` and none at `[51, 100]` leaves the cursor `completed` with
`next_start = 51` after two invocations. -/
theorem backfill_two_invocations (oracle : Nat → Nat → Option (List String))
    (now1 now2 : Nat) (ids : List String)
    (h1 : oracle 1 50 = some ids) (hlen : ids.length = 50)
    (h2 : oracle 51 100 = some []) :
    (backfillInvocation oracle now2 1 1 50
        (some (backfillInvocation oracle now1 1 1 50 none))).status = "completed" ∧
    (backfillInvocation oracle now2 1 1 50
        (some (backfillInvocation oracle now1 1 1 50 none))).nextStart = 51 := by
  have s1eq : backfillInvocation oracle now1 1 1 50 none =
      { status := "active", nextStart := 51, windowSize := 50,
        lastWindowStart := some 1, lastWindowEnd := some 50,
        lastSeenCount := some 50, completedAt := none } := by
    unfold backfillInvocation ensureBackfillState
    norm_num
    unfold backfillWindows
    norm_num [h1, hlen]
    rw [if_neg (by decide)]
    unfold backfillWindows
    rfl
  rw [s1eq]
  unfold backfillInvocation ensureBackfillState
  norm_num
  unfold backfillWindows
  norm_num [h2]
  rw [if_neg (by decide)]
  exact ⟨rfl, rfl⟩

/-- A concrete remote listing: 50 ids at positions `[1, 50]`, nothing at
`[51, 100]`, discovery error elsewhere. -/
def exampleBackfillOracle : Nat → Nat → Option (List String) := fun a b =>
  if a = 1 ∧ b = 50 then some (List.replicate 50 "v")
  else if a = 51 ∧ b = 100 then some [] else none

/-- C4 witness: the two-invocation run against the concrete listing. -/
theorem backfill_two_invocations_witness :
    (backfillInvocation exampleBackfillOracle 7 1 1 50
        (some (backfillInvocation exampleBackfillOracle 3 1 1 50 none))).status =
      "completed" ∧
    (backfillInvocation exampleBackfillOracle 7 1 1 50
        (some (backfillInvocation exampleBackfillOracle 3 1 1 50 none))).nextStart =
      51 :=
  backfill_two_invocations exampleBackfillOracle 3 7 (List.replicate 50 "v")
    rfl (by simp) rfl

/-- C2 counterexample: one candidate, batch exit code 1, evidence shows the
candidate in the after-archive snapshot — the run is recorded `success` with
no error message, so the nonzero batch exit code is *not* recorded as the
Run's `error_message`. -/
theorem stage_exit_code_not_recorded_cex :
    (1 : Int) ≠ 0 ∧
    (classifyStage ["a"] ["a"] []).1 = ["a"] ∧
    (stageRunFinish ["a"] ["a"] [] 1 none
        "some subtitle items are still missing").errorMessage = none ∧
    (stageRunFinish ["a"] ["a"] [] 1 none
        "some subtitle items are still missing").status = "success" := by
  decide

/-- C2 amended: classification is purely evidence-based (archive or local
file presence, never the exit code); every evidence-succeeded item is
upserted `status=success` with retry count 0; when at least one candidate
lacks evidence the run is recorded `error` with a non-empty error message —
the batch exception text, or `command exit code N` for a nonzero exit; when
every candidate has evidence the run is recorded `success` with no error
message even if the batch exit code was nonzero. -/
theorem stage_classification_evidence_based
    (targetIds afterArchiveIds localAfterIds : List String) (exitCode : Int)
    (commandError : Option String) (stillMissingMessage fileMissingMessage : String)
    (store : StateStore) (attemptAt schedNow : Nat) :
    (∀ id, id ∈ (classifyStage targetIds afterArchiveIds localAfterIds).1 ↔
        (id ∈ targetIds ∧ (id ∈ afterArchiveIds ∨ id ∈ localAfterIds))) ∧
    (∀ id, id ∈ (classifyStage targetIds afterArchiveIds localAfterIds).1 →
        stageApplyEvidence store targetIds afterArchiveIds localAfterIds
            attemptAt schedNow exitCode commandError fileMissingMessage id =
          some { status := "success", retryCount := 0, lastError := none,
                 lastAttemptAt := attemptAt, nextRetryAt := none }) ∧
    ((classifyStage targetIds afterArchiveIds localAfterIds).2 ≠ [] →
        (stageRunFinish targetIds afterArchiveIds localAfterIds exitCode
            commandError stillMissingMessage).status = "error" ∧
        (stageRunFinish targetIds afterArchiveIds localAfterIds exitCode
            commandError stillMissingMessage).errorMessage ≠ none ∧
        (commandError = none → exitCode ≠ 0 →
          (stageRunFinish targetIds afterArchiveIds localAfterIds exitCode
              commandError stillMissingMessage).errorMessage =
            some ("command exit code " ++ toString exitCode))) ∧
    ((classifyStage targetIds afterArchiveIds localAfterIds).2 = [] →
        (stageRunFinish targetIds afterArchiveIds localAfterIds exitCode
            commandError stillMissingMessage).status = "success" ∧
        (stageRunFinish targetIds afterArchiveIds localAfterIds exitCode
            commandError stillMissingMessage).errorMessage = none) := by
  refine ⟨?_, ?_, ?_, ?_⟩
  · intro id
    unfold classifyStage evidenceSuccess
    simp [List.mem_filter]
  · intro id hmem
    have hcont :
        (classifyStage targetIds afterArchiveIds localAfterIds).1.contains id = true :=
      List.elem_eq_true_of_mem hmem
    unfold stageApplyEvidence applyStageResults
    rw [hcont]
    simp
  · intro hne
    have hempty :
        (classifyStage targetIds afterArchiveIds localAfterIds).2.isEmpty = false :=
      List.isEmpty_eq_false.mpr hne
    refine ⟨?_, ?_, ?_⟩
    · simp [stageRunFinish, hempty]
    · simp [stageRunFinish, hempty]
    · intro hcmd hexit
      simp [stageRunFinish, hempty, hcmd, hexit]
  · intro hnil
    have hempty :
        (classifyStage targetIds afterArchiveIds localAfterIds).2.isEmpty = true :=
      List.isEmpty_iff.mpr hnil
    refine ⟨?_, ?_⟩ <;> simp [stageRunFinish, hempty]

/-- C2 witness: with candidates `a, b`, after-archive `a`, exit code 1, the
run closes as `error` carrying `command exit code 1`. -/
theorem stage_classification_evidence_based_witness :
    (stageRunFinish ["a", "b"] ["a"] [] 1 none
        "some subtitle items are still missing").errorMessage =
      some ("command exit code " ++ toString (1 : Int)) :=
  ((stage_classification_evidence_based ["a", "b"] ["a"] [] 1 none
      "some subtitle items are still missing" "subtitle file missing after download attempt"
      emptyStore 0 0).2.2.1 (by decide)).2.2 rfl (by decide)

/-- C9 counterexample: the media file is missing on disk, yet the
audio-repair step *does* issue a fallback re-download, and when the fallback
restores the file and the probe confirms audio the item is not classified
failed — contradicting "classify as failed with the missing file as
evidence, no re-download attempted". -/
theorem audio_repair_missing_file_cex :
    audioRepairStep none (Except.ok "p") (fun _ => ProbeOutcome.hasAudio)
        (fun _ => Except.error "x") (fun _ => ProbeOutcome.hasAudio) =
      { failed := none, repaired := false, missingFallbackAttempted := true } :=
  rfl

/-- C9 amended: when the media file is missing the step issues exactly one
fallback re-download for the item; if the fallback fails, the item is
classified failed with the fallback error (not the bare missing file) as
evidence; if the fallback succeeds, the item is classified exactly like an
item whose media file was present at the refreshed path. -/
theorem audio_repair_missing_file_behavior
    (fallbackMissing : Except String String) (probe : String → ProbeOutcome)
    (fallbackRepair : String → Except String String)
    (probeAfter : String → ProbeOutcome) :
    (audioRepairStep none fallbackMissing probe fallbackRepair
        probeAfter).missingFallbackAttempted = true ∧
    (∀ e, fallbackMissing = Except.error e →
      audioRepairStep none fallbackMissing probe fallbackRepair probeAfter =
        { failed := some e, repaired := false, missingFallbackAttempted := true }) ∧
    (∀ p, fallbackMissing = Except.ok p →
      (audioRepairStep none fallbackMissing probe fallbackRepair probeAfter).failed =
        (audioRepairStep (some p) fallbackMissing probe fallbackRepair probeAfter).failed ∧
      (audioRepairStep none fallbackMissing probe fallbackRepair probeAfter).repaired =
        (audioRepairStep (some p) fallbackMissing probe fallbackRepair
          probeAfter).repaired) := by
  have reprobeFields : ∀ (o : ProbeOutcome) (a b : Bool),
      (audioRepairReprobe a o).failed = (audioRepairReprobe b o).failed ∧
      (audioRepairReprobe a o).repaired = (audioRepairReprobe b o).repaired := by
    intro o a b
    cases o <;> exact ⟨rfl, rfl⟩
  have reprobeAttempted : ∀ (o : ProbeOutcome) (a : Bool),
      (audioRepairReprobe a o).missingFallbackAttempted = a := by
    intro o a
    cases o <;> rfl
  have probeFields : ∀ (path : String) (a b : Bool),
      (audioRepairProbe path a probe fallbackRepair probeAfter).failed =
        (audioRepairProbe path b probe fallbackRepair probeAfter).failed ∧
      (audioRepairProbe path a probe fallbackRepair probeAfter).repaired =
        (audioRepairProbe path b probe fallbackRepair probeAfter).repaired := by
    intro path a b
    unfold audioRepairProbe
    cases probe path with
    | hasAudio => exact ⟨rfl, rfl⟩
    | unknown m => exact ⟨rfl, rfl⟩
    | noAudio =>
      cases fallbackRepair path with
      | error e => exact ⟨rfl, rfl⟩
      | ok q => exact reprobeFields (probeAfter q) a b
  have probeAttempted : ∀ (path : String) (a : Bool),
      (audioRepairProbe path a probe fallbackRepair probeAfter).missingFallbackAttempted = a := by
    intro path a
    unfold audioRepairProbe
    cases probe path with
    | hasAudio => rfl
    | unknown m => rfl
    | noAudio =>
      cases fallbackRepair path with
      | error e => rfl
      | ok q => exact reprobeAttempted (probeAfter q) a
  cases fallbackMissing with
  | error e0 =>
    refine ⟨rfl, ?_, ?_⟩
    · intro e he
      cases he
      rfl
    · intro p hp
      simp at hp
  | ok p0 =>
    refine ⟨?_, ?_, ?_⟩
    · exact probeAttempted p0 true
    · intro e he
      simp at he
    · intro p hp
      cases hp
      exact probeFields p0 true false

/-! ## Ledger lemmas -/

theorem lookup_mem_keys (l : List (String × List String)) (v : String)
    (x : List String) (h : l.lookup v = some x) : v ∈ l.map Prod.fst := by
  induction l with
  | nil => simp [List.lookup] at h
  | cons p rest ih =>
    rw [List.lookup] at h
    cases hbe : v == p.1 with
    | true =>
      have hv : v = p.1 := by simpa using hbe
      simp [hv]
    | false =>
      rw [hbe] at h
      exact List.mem_cons_of_mem _ (ih h)

theorem mem_subScanIds (fs : LedgerFS) (v : String) :
    v ∈ subScanIds fs ↔ scanSubPaths fs v ≠ [] := by
  unfold subScanIds
  simp only [List.mem_filter, decide_eq_true_eq, Bool.not_eq_true,
    List.isEmpty_eq_false]
  constructor
  · intro h
    simpa using h.2
  · intro h
    refine ⟨?_, by simpa using h⟩
    unfold scanSubPaths at h
    cases hl : fs.subFiles.lookup v with
    | none => simp [hl] at h
    | some x => exact lookup_mem_keys fs.subFiles v x hl

theorem mem_scanUnion (fs : LedgerFS) (v : String) :
    v ∈ scanUnion fs ↔
      (v ∈ fs.metaIds ∨ v ∈ fs.mediaIds ∨ v ∈ subScanIds fs) := by
  unfold scanUnion
  simp [List.mem_dedup, or_assoc]

theorem upsertMany_downloadState (fs : LedgerFS) (ids : List String)
    (db : LedgerDB) : (upsertMany fs ids db).downloadState = db.downloadState := by
  induction ids generalizing db with
  | nil => rfl
  | cons i rest ih =>
    simpa [upsertMany] using ih (upsertVideoAndSubtitles fs i db)

theorem rebuildSourceFull_downloadState (fs : LedgerFS) (db : LedgerDB) :
    (rebuildSourceFull fs db).downloadState = db.downloadState := by
  unfold rebuildSourceFull
  simpa using upsertMany_downloadState fs (scanUnion fs) { db with subtitles := [] }

theorem rebuildSourceIncremental_downloadState (fs : LedgerFS)
    (mediaArchive subsArchive : List String) (db : LedgerDB) :
    (rebuildSourceIncremental fs mediaArchive subsArchive db).downloadState =
      db.downloadState := by
  unfold rebuildSourceIncremental
  by_cases h : dbVideoIds db = []
  · simp [h, rebuildSourceFull_downloadState]
  · by_cases hc : incrementalCandidates fs mediaArchive subsArchive db = [] <;>
      simp [h, hc, upsertMany_downloadState]

theorem mem_dbVideoIds_upsertVideoRow (rows : List VideoRow) (row : VideoRow)
    (v : String) :
    v ∈ (upsertVideoRow rows row).map (fun r => r.videoId) ↔
      v ∈ rows.map (fun r => r.videoId) ∨ v = row.videoId := by
  unfold upsertVideoRow
  by_cases hany : rows.any (fun r => r.videoId = row.videoId) = true
  · rw [if_pos hany]
    simp only [List.map_map, List.mem_map, Function.comp]
    constructor
    · rintro ⟨r, hr, hv⟩
      by_cases h : r.videoId = row.videoId
      · rw [if_pos h] at hv
        exact Or.inr hv.symm
      · rw [if_neg h] at hv
        exact Or.inl ⟨r, hr, hv⟩
    · rintro (⟨r, hr, hv⟩ | hv)
      · refine ⟨r, hr, ?_⟩
        by_cases h : r.videoId = row.videoId
        · rw [if_pos h, ← h, hv]
        · rw [if_neg h, hv]
      · obtain ⟨r, hr, hid⟩ := by simpa using List.any_eq_true.mp hany
        refine ⟨r, hr, ?_⟩
        rw [if_pos hid, hv]
  · rw [if_neg hany]
    simp

theorem mem_upsertVideoRow (rows : List VideoRow) (row r : VideoRow)
    (h : r ∈ upsertVideoRow rows row) :
    r = row ∨ (r ∈ rows ∧ r.videoId ≠ row.videoId) := by
  unfold upsertVideoRow at h
  by_cases hany : rows.any (fun r => r.videoId = row.videoId) = true
  · rw [if_pos hany] at h
    obtain ⟨r0, hr0, heq⟩ := List.mem_map.mp h
    by_cases hid : r0.videoId = row.videoId
    · rw [if_pos hid] at heq
      exact Or.inl heq.symm
    · rw [if_neg hid] at heq
      exact Or.inr ⟨heq ▸ hr0, heq ▸ hid⟩
  · rw [if_neg hany] at h
    rcases List.mem_append.mp h with h1 | h1
    · refine Or.inr ⟨h1, ?_⟩
      intro hid
      exact hany (List.any_eq_true.mpr ⟨r, h1, by simpa using hid⟩)
    · exact Or.inl (by simpa using h1)

theorem mkVideoRow_videoId (fs : LedgerFS) (v : String) :
    (mkVideoRow fs v).videoId = v := rfl

theorem mem_dbVideoIds_upsertMany (fs : LedgerFS) (ids : List String)
    (db : LedgerDB) (v : String) :
    v ∈ dbVideoIds (upsertMany fs ids db) ↔ v ∈ dbVideoIds db ∨ v ∈ ids := by
  induction ids generalizing db with
  | nil => simp [upsertMany]
  | cons i rest ih =>
    have step : upsertMany fs (i :: rest) db =
        upsertMany fs rest (upsertVideoAndSubtitles fs i db) := by
      simp [upsertMany]
    rw [step, ih]
    have hup : v ∈ dbVideoIds (upsertVideoAndSubtitles fs i db) ↔
        v ∈ dbVideoIds db ∨ v = i := by
      unfold dbVideoIds upsertVideoAndSubtitles
      simpa using mem_dbVideoIds_upsertVideoRow db.videos (mkVideoRow fs i) v
    rw [hup]
    simp [or_assoc, or_comm (a := v = i)]

theorem mem_videos_upsertMany (fs : LedgerFS) (ids : List String)
    (db : LedgerDB) (r : VideoRow) (h : r ∈ (upsertMany fs ids db).videos) :
    (r.videoId ∈ ids ∧ r = mkVideoRow fs r.videoId) ∨
      (r ∈ db.videos ∧ r.videoId ∉ ids) := by
  induction ids generalizing db with
  | nil => exact Or.inr ⟨by simpa [upsertMany] using h, by simp⟩
  | cons i rest ih =>
    have step : upsertMany fs (i :: rest) db =
        upsertMany fs rest (upsertVideoAndSubtitles fs i db) := by
      simp [upsertMany]
    rw [step] at h
    rcases ih (upsertVideoAndSubtitles fs i db) h with ⟨hin, heq⟩ | ⟨hmem, hnot⟩
    · exact Or.inl ⟨List.mem_cons_of_mem i hin, heq⟩
    · rcases mem_upsertVideoRow db.videos (mkVideoRow fs i) r hmem with heq | ⟨hold, hne⟩
      · refine Or.inl ⟨?_, ?_⟩
        · rw [heq, mkVideoRow_videoId]
          exact List.mem_cons_self i rest
        · rw [heq, mkVideoRow_videoId]
      · refine Or.inr ⟨hold, ?_⟩
        intro hmem2
        rcases List.mem_cons.mp hmem2 with h1 | h1
        · exact hne (by simpa [mkVideoRow_videoId] using h1)
        · exact hnot h1

theorem dbSubPaths_upsertVideoAndSubtitles (fs : LedgerFS) (i : String)
    (db : LedgerDB) (v : String) :
    dbSubPaths (upsertVideoAndSubtitles fs i db) v =
      if v = i then scanSubPaths fs i else dbSubPaths db v := by
  unfold dbSubPaths upsertVideoAndSubtitles setSubtitleRows
  simp only [List.filter_append, List.map_append]
  by_cases hv : v = i
  · subst hv
    have h1 : (db.subtitles.filter (fun p => decide ¬ p.1 = v)).filter
        (fun p => decide (p.1 = v)) = [] := by
      rw [List.filter_filter]
      apply List.filter_eq_nil_iff.mpr
      intro p _
      by_cases hp : p.1 = v <;> simp [hp]
    have h2 : ((scanSubPaths fs v).map (fun path => (v, path))).filter
        (fun p => decide (p.1 = v)) = (scanSubPaths fs v).map (fun path => (v, path)) := by
      apply List.filter_eq_self.mpr
      intro p hp
      obtain ⟨path, _, hpe⟩ := List.mem_map.mp hp
      simp [← hpe]
    rw [if_pos rfl]
    simp only [h1, h2, List.map_nil, List.nil_append, List.map_map]
    simp [Function.comp]
  · rw [if_neg hv]
    have h1 : (db.subtitles.filter (fun p => decide ¬ p.1 = i)).filter
        (fun p => decide (p.1 = v)) = db.subtitles.filter (fun p => decide (p.1 = v)) := by
      rw [List.filter_filter]
      apply List.filter_congr
      intro p _
      by_cases hp : p.1 = v
      · simp [hp, hv]
      · simp [hp]
    have h2 : ((scanSubPaths fs i).map (fun path => (i, path))).filter
        (fun p => decide (p.1 = v)) = [] := by
      apply List.filter_eq_nil_iff.mpr
      intro p hp
      obtain ⟨path, _, hpe⟩ := List.mem_map.mp hp
      rw [← hpe]
      simpa using fun h => hv h.symm
    rw [h1, h2]
    simp

theorem dbSubPaths_upsertMany (fs : LedgerFS) (ids : List String)
    (db : LedgerDB) (v : String) :
    dbSubPaths (upsertMany fs ids db) v =
      if v ∈ ids then scanSubPaths fs v else dbSubPaths db v := by
  induction ids generalizing db with
  | nil => simp [upsertMany]
  | cons i rest ih =>
    have step : upsertMany fs (i :: rest) db =
        upsertMany fs rest (upsertVideoAndSubtitles fs i db) := by
      simp [upsertMany]
    rw [step, ih, dbSubPaths_upsertVideoAndSubtitles]
    by_cases h1 : v ∈ rest
    · simp [h1]
    · by_cases h2 : v = i
      · subst h2
        simp [h1]
      · simp [h1, h2]

theorem mem_dbSubVideoIds (db : LedgerDB) (v : String) :
    v ∈ dbSubVideoIds db ↔ dbSubPaths db v ≠ [] := by
  unfold dbSubVideoIds dbSubPaths
  simp only [List.mem_map, ne_eq, List.map_eq_nil_iff]
  constructor
  · rintro ⟨p, hp, hv⟩ hnil
    have : p ∈ db.subtitles.filter (fun p => decide (p.1 = v)) :=
      List.mem_filter.mpr ⟨hp, by simp [hv]⟩
    simp [hnil] at this
  · intro h
    cases hfl : db.subtitles.filter (fun p => decide (p.1 = v)) with
    | nil => exact absurd hfl h
    | cons p ps =>
      have hp : p ∈ db.subtitles.filter (fun p => decide (p.1 = v)) := by
        rw [hfl]
        exact List.mem_cons_self p ps
      have hmf := List.mem_filter.mp hp
      exact ⟨p, hmf.1, by simpa using hmf.2⟩

theorem listSetEq_refl (l : List String) : listSetEq l l = true := by
  unfold listSetEq
  simp only [Bool.and_eq_true, List.all_eq_true]
  exact ⟨fun x hx => List.elem_eq_true_of_mem hx,
         fun x hx => List.elem_eq_true_of_mem hx⟩

theorem rebuildSourceFull_videos (fs : LedgerFS) (db : LedgerDB) :
    (rebuildSourceFull fs db).videos =
      ((upsertMany fs (scanUnion fs) { db with subtitles := [] }).videos).filter
        (fun r => (scanUnion fs).contains r.videoId) := rfl

theorem rebuildSourceFull_subtitles (fs : LedgerFS) (db : LedgerDB) :
    (rebuildSourceFull fs db).subtitles =
      (upsertMany fs (scanUnion fs) { db with subtitles := [] }).subtitles := rfl

theorem mem_dbVideoIds_rebuildFull (fs : LedgerFS) (db : LedgerDB) (v : String) :
    v ∈ dbVideoIds (rebuildSourceFull fs db) ↔ v ∈ scanUnion fs := by
  unfold dbVideoIds
  rw [rebuildSourceFull_videos]
  constructor
  · intro h
    obtain ⟨r, hr, hv⟩ := List.mem_map.mp h
    have hc := (List.mem_filter.mp hr).2
    subst hv
    exact List.mem_of_elem_eq_true hc
  · intro h
    have h2 : v ∈ dbVideoIds (upsertMany fs (scanUnion fs) { db with subtitles := [] }) :=
      (mem_dbVideoIds_upsertMany fs (scanUnion fs) { db with subtitles := [] } v).mpr
        (Or.inr h)
    obtain ⟨r, hr, hv⟩ := List.mem_map.mp h2
    refine List.mem_map.mpr ⟨r, List.mem_filter.mpr ⟨hr, ?_⟩, hv⟩
    rw [hv]
    exact List.elem_eq_true_of_mem h

theorem mem_videos_rebuildFull (fs : LedgerFS) (db : LedgerDB) (r : VideoRow)
    (h : r ∈ (rebuildSourceFull fs db).videos) :
    r = mkVideoRow fs r.videoId ∧ r.videoId ∈ scanUnion fs := by
  rw [rebuildSourceFull_videos] at h
  have hf := List.mem_filter.mp h
  have hmem : r.videoId ∈ scanUnion fs := List.mem_of_elem_eq_true hf.2
  rcases mem_videos_upsertMany fs _ _ r hf.1 with ⟨_, heq⟩ | ⟨_, hnot⟩
  · exact ⟨heq, hmem⟩
  · exact absurd hmem hnot

theorem dbSubPaths_rebuildFull (fs : LedgerFS) (db : LedgerDB) (v : String) :
    dbSubPaths (rebuildSourceFull fs db) v = scanSubPaths fs v := by
  have hstep : dbSubPaths (rebuildSourceFull fs db) v =
      dbSubPaths (upsertMany fs (scanUnion fs) { db with subtitles := [] }) v := by
    unfold dbSubPaths
    rw [rebuildSourceFull_subtitles]
  rw [hstep, dbSubPaths_upsertMany]
  by_cases h : v ∈ scanUnion fs
  · simp [h]
  · rw [if_neg h]
    have hns : scanSubPaths fs v = [] := by
      by_contra hne
      exact h ((mem_scanUnion fs v).mpr (Or.inr (Or.inr ((mem_subScanIds fs v).mpr hne))))
    rw [hns]
    simp [dbSubPaths]

theorem mem_missingFromDbIds (mediaArchive subsArchive : List String)
    (db : LedgerDB) (v : String) :
    v ∈ missingFromDbIds mediaArchive subsArchive db ↔
      (v ∈ mediaArchive ∨ v ∈ subsArchive) ∧ v ∉ dbVideoIds db := by
  unfold missingFromDbIds
  simp [List.mem_filter]
  tauto

theorem mem_noMetaCandidateIds (mediaArchive subsArchive : List String)
    (db : LedgerDB) (v : String) :
    v ∈ noMetaCandidateIds mediaArchive subsArchive db ↔
      (∃ r ∈ db.videos, r.videoId = v ∧ r.hasMeta = false) ∧
        (v ∈ mediaArchive ∨ v ∈ subsArchive) := by
  unfold noMetaCandidateIds
  simp [List.mem_filter, List.mem_map]
  tauto

theorem mem_mediaBackfillIds (mediaArchive : List String) (db : LedgerDB)
    (v : String) :
    v ∈ mediaBackfillIds mediaArchive db ↔
      v ∈ mediaArchive ∧ ∃ r ∈ db.videos, r.videoId = v ∧ r.hasMedia = false := by
  unfold mediaBackfillIds
  simp [List.mem_filter, List.mem_map]
  tauto

theorem mem_subtitleBackfillIds (subsArchive : List String) (db : LedgerDB)
    (v : String) :
    v ∈ subtitleBackfillIds subsArchive db ↔
      v ∈ subsArchive ∧ ∃ r ∈ db.videos, r.videoId = v ∧ r.hasSubs = false := by
  unfold subtitleBackfillIds
  simp [List.mem_filter, List.mem_map]
  tauto

theorem mem_subtitleChangedIds (fs : LedgerFS) (db : LedgerDB) (v : String) :
    v ∈ subtitleChangedIds fs db ↔
      (v ∈ subScanIds fs ∨ v ∈ dbSubVideoIds db) ∧
        listSetEq (scanSubPaths fs v) (dbSubPaths db v) = false := by
  unfold subtitleChangedIds
  simp [List.mem_filter]
  tauto

theorem mem_incrementalCandidates (fs : LedgerFS)
    (mediaArchive subsArchive : List String) (db : LedgerDB) (v : String) :
    v ∈ incrementalCandidates fs mediaArchive subsArchive db ↔
      (v ∈ missingFromDbIds mediaArchive subsArchive db ∨
       v ∈ noMetaCandidateIds mediaArchive subsArchive db ∨
       v ∈ mediaBackfillIds mediaArchive db ∨
       v ∈ subtitleBackfillIds subsArchive db ∨
       v ∈ subtitleChangedIds fs db) := by
  unfold incrementalCandidates
  simp [List.mem_append, or_assoc]

/-- A state whose rows and subtitle records are consistent with the archives
and the scans yields an empty incremental candidate set. -/
theorem incrementalCandidates_eq_nil (fs : LedgerFS)
    (mediaArchive subsArchive : List String) (db1 : LedgerDB)
    (harch : ∀ v, (v ∈ mediaArchive ∨ v ∈ subsArchive) → v ∈ dbVideoIds db1)
    (hrowMeta : ∀ r ∈ db1.videos, r.hasMeta = false →
        (r.videoId ∈ mediaArchive ∨ r.videoId ∈ subsArchive) → False)
    (hrowMedia : ∀ r ∈ db1.videos, r.hasMedia = false →
        r.videoId ∈ mediaArchive → False)
    (hrowSubs : ∀ r ∈ db1.videos, r.hasSubs = false →
        r.videoId ∈ subsArchive → False)
    (hsub : ∀ v, (v ∈ subScanIds fs ∨ v ∈ dbSubVideoIds db1) →
        listSetEq (scanSubPaths fs v) (dbSubPaths db1 v) = true) :
    incrementalCandidates fs mediaArchive subsArchive db1 = [] := by
  have h1 : missingFromDbIds mediaArchive subsArchive db1 = [] := by
    rw [List.eq_nil_iff_forall_not_mem]
    intro v hv
    obtain ⟨ha, hnot⟩ := (mem_missingFromDbIds mediaArchive subsArchive db1 v).mp hv
    exact hnot (harch v ha)
  have h2 : noMetaCandidateIds mediaArchive subsArchive db1 = [] := by
    rw [List.eq_nil_iff_forall_not_mem]
    intro v hv
    obtain ⟨⟨r, hr, hv2, hmeta⟩, ha⟩ :=
      (mem_noMetaCandidateIds mediaArchive subsArchive db1 v).mp hv
    exact hrowMeta r hr hmeta (hv2 ▸ ha)
  have h3 : mediaBackfillIds mediaArchive db1 = [] := by
    rw [List.eq_nil_iff_forall_not_mem]
    intro v hv
    obtain ⟨ha, r, hr, hv2, hmedia⟩ := (mem_mediaBackfillIds mediaArchive db1 v).mp hv
    exact hrowMedia r hr hmedia (hv2 ▸ ha)
  have h4 : subtitleBackfillIds subsArchive db1 = [] := by
    rw [List.eq_nil_iff_forall_not_mem]
    intro v hv
    obtain ⟨ha, r, hr, hv2, hsubs⟩ := (mem_subtitleBackfillIds subsArchive db1 v).mp hv
    exact hrowSubs r hr hsubs (hv2 ▸ ha)
  have h5 : subtitleChangedIds fs db1 = [] := by
    rw [List.eq_nil_iff_forall_not_mem]
    intro v hv
    obtain ⟨hbase, hne⟩ := (mem_subtitleChangedIds fs db1 v).mp hv
    rw [hsub v hbase] at hne
    cases hne
  simp [incrementalCandidates, h1, h2, h3, h4, h5]

/-- C9 witness: a missing media file with a failing fallback download is
classified failed with the fallback error as evidence. -/
theorem audio_repair_missing_file_behavior_witness :
    audioRepairStep none (Except.error "cannot build video URL for fallback")
        (fun _ => ProbeOutcome.hasAudio) (fun _ => Except.error "x")
        (fun _ => ProbeOutcome.hasAudio) =
      { failed := some "cannot build video URL for fallback", repaired := false,
        missingFallbackAttempted := true } :=
  (audio_repair_missing_file_behavior (Except.error "cannot build video URL for fallback")
      (fun _ => ProbeOutcome.hasAudio) (fun _ => Except.error "x")
      (fun _ => ProbeOutcome.hasAudio)).2.1
    "cannot build video URL for fallback" rfl

/-- C1 counterexample: the ledger build in incremental mode deletes the
`download_state` row of item `z` — its id is not in the videos catalog, and
the post-rebuild `DELETE FROM download_state` runs in both modes
(substudy.py:2588-2597), so the RetryRecord is gone even though no full
rebuild pruned anything. -/
theorem incremental_build_deletes_retry_record_cex :
    (⟨"media", "z"⟩ : DownloadStateKey) ∈
      (⟨[⟨"a", true, true, true⟩], [], [⟨"media", "z"⟩]⟩ : LedgerDB).downloadState ∧
    (buildLedgerSource true ⟨["a"], [], []⟩ ["a"] []
        ⟨[⟨"a", true, true, true⟩], [], [⟨"media", "z"⟩]⟩).downloadState = [] := by
  decide

/-- C1 amended: the per-source ledger build deletes `download_state` rows in
*both* modes — after the rebuild, a RetryRecord survives the incremental
build exactly when its item id is still in the source's videos catalog;
records of uncataloged items are deleted even though incremental
reconciliation itself never deletes catalog rows. -/
theorem ledger_build_incremental_deletes_uncataloged (fs : LedgerFS)
    (mediaArchive subsArchive : List String) (db : LedgerDB)
    (rec : DownloadStateKey) (hMem : rec ∈ db.downloadState) :
    rec ∈ (buildLedgerSource true fs mediaArchive subsArchive db).downloadState ↔
      rec.videoId ∈ dbVideoIds
        (rebuildSourceIncremental fs mediaArchive subsArchive db) := by
  have hds : (buildLedgerSource true fs mediaArchive subsArchive db).downloadState =
      (rebuildSourceIncremental fs mediaArchive subsArchive db).downloadState.filter
        (fun r => (dbVideoIds
          (rebuildSourceIncremental fs mediaArchive subsArchive db)).contains r.videoId) :=
    rfl
  rw [hds, rebuildSourceIncremental_downloadState, List.mem_filter]
  constructor
  · rintro ⟨_, hc⟩
    exact List.mem_of_elem_eq_true hc
  · intro hv
    exact ⟨hMem, List.elem_eq_true_of_mem hv⟩

/-- C1 witness: a RetryRecord whose item stays cataloged survives the
incremental ledger build. -/
theorem ledger_build_incremental_deletes_uncataloged_witness :
    (⟨"media", "a"⟩ : DownloadStateKey) ∈
      (buildLedgerSource true ⟨["a"], ["a"], []⟩ ["a"] []
        ⟨[⟨"a", true, true, false⟩], [], [⟨"media", "a"⟩]⟩).downloadState ↔
      (⟨"media", "a"⟩ : DownloadStateKey).videoId ∈ dbVideoIds
        (rebuildSourceIncremental ⟨["a"], ["a"], []⟩ ["a"] []
          ⟨[⟨"a", true, true, false⟩], [], [⟨"media", "a"⟩]⟩) :=
  ledger_build_incremental_deletes_uncataloged ⟨["a"], ["a"], []⟩ ["a"] []
    ⟨[⟨"a", true, true, false⟩], [], [⟨"media", "a"⟩]⟩ ⟨"media", "a"⟩ (by decide)

/-- C7 counterexample: with metadata on disk for `a` only but `z` present in
the media archive, a full rebuild yields catalog `{a}` while the following
incremental rebuild (no external changes) adds `z` from the archive — the
CatalogItem sets differ. -/
theorem full_then_incremental_differs_cex :
    "z" ∈ dbVideoIds (rebuildSourceIncremental ⟨["a"], [], []⟩ ["a", "z"] []
        (rebuildSourceFull ⟨["a"], [], []⟩ ⟨[], [], []⟩)) ∧
    "z" ∉ dbVideoIds (rebuildSourceFull ⟨["a"], [], []⟩ ⟨[], [], []⟩) := by
  decide

/-- C7 amended: when the full rebuild yields a nonempty catalog, a following
incremental rebuild with no external changes yields exactly the full
rebuild's CatalogItem set united with all archived ids — so the two sets
coincide precisely when every archived id was already found by the full
rebuild's scans. -/
theorem full_then_incremental_ids (fs : LedgerFS)
    (mediaArchive subsArchive : List String) (db : LedgerDB)
    (hne : dbVideoIds (rebuildSourceFull fs db) ≠ []) (v : String) :
    v ∈ dbVideoIds (rebuildSourceIncremental fs mediaArchive subsArchive
        (rebuildSourceFull fs db)) ↔
      (v ∈ dbVideoIds (rebuildSourceFull fs db) ∨
        v ∈ mediaArchive ∨ v ∈ subsArchive) := by
  unfold rebuildSourceIncremental
  rw [if_neg hne]
  by_cases hc : incrementalCandidates fs mediaArchive subsArchive
      (rebuildSourceFull fs db) = []
  · rw [if_pos hc]
    constructor
    · exact Or.inl
    · rintro (h | h | h)
      · exact h
      · by_cases hv : v ∈ dbVideoIds (rebuildSourceFull fs db)
        · exact hv
        · exfalso
          have hm : v ∈ incrementalCandidates fs mediaArchive subsArchive
              (rebuildSourceFull fs db) :=
            (mem_incrementalCandidates fs mediaArchive subsArchive _ v).mpr
              (Or.inl ((mem_missingFromDbIds mediaArchive subsArchive _ v).mpr
                ⟨Or.inl h, hv⟩))
          rw [hc] at hm
          simp at hm
      · by_cases hv : v ∈ dbVideoIds (rebuildSourceFull fs db)
        · exact hv
        · exfalso
          have hm : v ∈ incrementalCandidates fs mediaArchive subsArchive
              (rebuildSourceFull fs db) :=
            (mem_incrementalCandidates fs mediaArchive subsArchive _ v).mpr
              (Or.inl ((mem_missingFromDbIds mediaArchive subsArchive _ v).mpr
                ⟨Or.inr h, hv⟩))
          rw [hc] at hm
          simp at hm
  · rw [if_neg hc]
    rw [mem_dbVideoIds_upsertMany]
    constructor
    · rintro (h | h)
      · exact Or.inl h
      · rcases (mem_incrementalCandidates fs mediaArchive subsArchive _ v).mp h with
          h1 | h1 | h1 | h1 | h1
        · exact Or.inr ((mem_missingFromDbIds mediaArchive subsArchive _ v).mp h1).1
        · exact Or.inr ((mem_noMetaCandidateIds mediaArchive subsArchive _ v).mp h1).2
        · exact Or.inr (Or.inl ((mem_mediaBackfillIds mediaArchive _ v).mp h1).1)
        · exact Or.inr (Or.inr ((mem_subtitleBackfillIds subsArchive _ v).mp h1).1)
        · obtain ⟨hbase, _⟩ := (mem_subtitleChangedIds fs _ v).mp h1
          refine Or.inl ((mem_dbVideoIds_rebuildFull fs db v).mpr
            ((mem_scanUnion fs v).mpr (Or.inr (Or.inr ?_))))
          rcases hbase with h2 | h2
          · exact h2
          · rw [mem_dbSubVideoIds, dbSubPaths_rebuildFull] at h2
            exact (mem_subScanIds fs v).mpr h2
    · rintro (h | h | h)
      · exact Or.inl h
      · by_cases hv : v ∈ dbVideoIds (rebuildSourceFull fs db)
        · exact Or.inl hv
        · exact Or.inr ((mem_incrementalCandidates fs mediaArchive subsArchive _ v).mpr
            (Or.inl ((mem_missingFromDbIds mediaArchive subsArchive _ v).mpr
              ⟨Or.inl h, hv⟩)))
      · by_cases hv : v ∈ dbVideoIds (rebuildSourceFull fs db)
        · exact Or.inl hv
        · exact Or.inr ((mem_incrementalCandidates fs mediaArchive subsArchive _ v).mpr
            (Or.inl ((mem_missingFromDbIds mediaArchive subsArchive _ v).mpr
              ⟨Or.inr h, hv⟩)))

/-- C7 witness: with metadata for `a` on disk and `a` alone archived, full
rebuild followed by incremental keeps the catalog at exactly `{a}`. -/
theorem full_then_incremental_ids_witness :
    "a" ∈ dbVideoIds (rebuildSourceIncremental ⟨["a"], [], []⟩ ["a"] []
        (rebuildSourceFull ⟨["a"], [], []⟩ ⟨[], [], []⟩)) ↔
      ("a" ∈ dbVideoIds (rebuildSourceFull ⟨["a"], [], []⟩ ⟨[], [], []⟩) ∨
        "a" ∈ ["a"] ∨ "a" ∈ ([] : List String)) :=
  full_then_incremental_ids ⟨["a"], [], []⟩ ["a"] [] ⟨[], [], []⟩ (by decide) "a"

/-- C8 counterexample: item `z` sits in the media archive but has no local
files; after one incremental run (which inserts `z` with no metadata), the
second run's candidate set still contains `z` — the second run performs
catalog writes although nothing changed on disk. -/
theorem incremental_rerun_writes_cex :
    incrementalCandidates ⟨[], [], []⟩ ["z"] []
      (rebuildSourceIncremental ⟨[], [], []⟩ ["z"] []
        ⟨[⟨"a", true, true, true⟩], [], []⟩) ≠ [] := by
  decide

/-- C8 amended: an incremental rerun is a no-op only for consistent states —
if every archived id has a metadata file on disk, every media-archived id a
media file, and every subs-archived id at least one subtitle file, then
after one incremental reconciliation the candidate set of the next run is
empty (zero catalog writes); persistent inconsistencies (e.g. an archived id
whose metadata never appeared) are re-selected on every run. -/
theorem incremental_rerun_zero_candidates (fs : LedgerFS)
    (mediaArchive subsArchive : List String) (db : LedgerDB)
    (hMeta : ∀ v ∈ mediaArchive ++ subsArchive, v ∈ fs.metaIds)
    (hMedia : ∀ v ∈ mediaArchive, v ∈ fs.mediaIds)
    (hSubs : ∀ v ∈ subsArchive, scanSubPaths fs v ≠ []) :
    incrementalCandidates fs mediaArchive subsArchive
      (rebuildSourceIncremental fs mediaArchive subsArchive db) = [] := by
  have hMeta2 : ∀ v, (v ∈ mediaArchive ∨ v ∈ subsArchive) → v ∈ fs.metaIds :=
    fun v hv => hMeta v (List.mem_append.mpr hv)
  unfold rebuildSourceIncremental
  by_cases h0 : dbVideoIds db = []
  · rw [if_pos h0]
    apply incrementalCandidates_eq_nil
    · intro v hv
      exact (mem_dbVideoIds_rebuildFull fs db v).mpr
        ((mem_scanUnion fs v).mpr (Or.inl (hMeta2 v hv)))
    · intro r hr hmeta harch
      obtain ⟨heq, _⟩ := mem_videos_rebuildFull fs db r hr
      rw [heq] at hmeta
      simp [mkVideoRow] at hmeta
      exact hmeta (hMeta2 _ harch)
    · intro r hr hmedia harch
      obtain ⟨heq, _⟩ := mem_videos_rebuildFull fs db r hr
      rw [heq] at hmedia
      simp [mkVideoRow] at hmedia
      exact hmedia (hMedia _ harch)
    · intro r hr hsubs harch
      obtain ⟨heq, _⟩ := mem_videos_rebuildFull fs db r hr
      rw [heq] at hsubs
      simp [mkVideoRow] at hsubs
      exact hSubs _ harch hsubs
    · intro v _
      rw [dbSubPaths_rebuildFull]
      exact listSetEq_refl _
  · rw [if_neg h0]
    by_cases hc : incrementalCandidates fs mediaArchive subsArchive db = []
    · rw [if_pos hc]
      exact hc
    · rw [if_neg hc]
      apply incrementalCandidates_eq_nil
      · intro v hv
        by_cases hvdb : v ∈ dbVideoIds db
        · exact (mem_dbVideoIds_upsertMany fs _ db v).mpr (Or.inl hvdb)
        · exact (mem_dbVideoIds_upsertMany fs _ db v).mpr (Or.inr
            ((mem_incrementalCandidates fs mediaArchive subsArchive db v).mpr
              (Or.inl ((mem_missingFromDbIds mediaArchive subsArchive db v).mpr
                ⟨hv, hvdb⟩))))
      · intro r hr hmeta harch
        rcases mem_videos_upsertMany fs _ db r hr with ⟨_, heq⟩ | ⟨hold, hnot⟩
        · rw [heq] at hmeta
          simp [mkVideoRow] at hmeta
          exact hmeta (hMeta2 _ harch)
        · exact hnot ((mem_incrementalCandidates fs mediaArchive subsArchive db
              r.videoId).mpr (Or.inr (Or.inl
            ((mem_noMetaCandidateIds mediaArchive subsArchive db r.videoId).mpr
              ⟨⟨r, hold, rfl, hmeta⟩, harch⟩))))
      · intro r hr hmedia harch
        rcases mem_videos_upsertMany fs _ db r hr with ⟨_, heq⟩ | ⟨hold, hnot⟩
        · rw [heq] at hmedia
          simp [mkVideoRow] at hmedia
          exact hmedia (hMedia _ harch)
        · exact hnot ((mem_incrementalCandidates fs mediaArchive subsArchive db
              r.videoId).mpr (Or.inr (Or.inr (Or.inl
            ((mem_mediaBackfillIds mediaArchive db r.videoId).mpr
              ⟨harch, r, hold, rfl, hmedia⟩)))))
      · intro r hr hsubs harch
        rcases mem_videos_upsertMany fs _ db r hr with ⟨_, heq⟩ | ⟨hold, hnot⟩
        · rw [heq] at hsubs
          simp [mkVideoRow] at hsubs
          exact hSubs _ harch hsubs
        · exact hnot ((mem_incrementalCandidates fs mediaArchive subsArchive db
              r.videoId).mpr (Or.inr (Or.inr (Or.inr (Or.inl
            ((mem_subtitleBackfillIds subsArchive db r.videoId).mpr
              ⟨harch, r, hold, rfl, hsubs⟩))))))
      · intro v hv
        rw [dbSubPaths_upsertMany]
        by_cases hvc : v ∈ incrementalCandidates fs mediaArchive subsArchive db
        · rw [if_pos hvc]
          exact listSetEq_refl _
        · rw [if_neg hvc]
          by_cases heq : listSetEq (scanSubPaths fs v) (dbSubPaths db v) = true
          · exact heq
          · exfalso
            have hfalse : listSetEq (scanSubPaths fs v) (dbSubPaths db v) = false := by
              revert heq
              cases listSetEq (scanSubPaths fs v) (dbSubPaths db v) <;> simp
            have hbase : v ∈ subScanIds fs ∨ v ∈ dbSubVideoIds db := by
              rcases hv with h | h
              · exact Or.inl h
              · right
                rw [mem_dbSubVideoIds] at h ⊢
                rw [dbSubPaths_upsertMany, if_neg hvc] at h
                exact h
            exact hvc ((mem_incrementalCandidates fs mediaArchive subsArchive db v).mpr
              (Or.inr (Or.inr (Or.inr (Or.inr
                ((mem_subtitleChangedIds fs db v).mpr ⟨hbase, hfalse⟩))))))

/-- C8 witness: a fully consistent state (archived id `a` with metadata,
media, and a subtitle file on disk) gives an empty second-run candidate
set. -/
theorem incremental_rerun_zero_candidates_witness :
    incrementalCandidates ⟨["a"], ["a"], [("a", ["p"])]⟩ ["a"] ["a"]
      (rebuildSourceIncremental ⟨["a"], ["a"], [("a", ["p"])]⟩ ["a"] ["a"]
        ⟨[], [], []⟩) = [] :=
  incremental_rerun_zero_candidates ⟨["a"], ["a"], [("a", ["p"])]⟩ ["a"] ["a"]
    ⟨[], [], []⟩ (by decide) (by decide) (by decide)

end Substudy
